import Mathlib

/-!
Shallow embedding of the X-manage-app rate limiter
(`src/apps/api/src/rate-limiter.ts`) and cron handlers
(`handleDailyXSync`, `checkLastSyncHealth`), with proofs of the
behavioural properties stated in the specification.

Conventions of the embedding:
* JavaScript numbers that the code only ever uses as integers
  (counts, millisecond durations, timestamps) are modelled as `Nat`/`Int`;
  the two exact ratio comparisons (`0.2`, `0.15`, hour division) are
  modelled over `ℚ`.
* A JavaScript value that may be `NaN` (the result of `parseInt`) is
  modelled as `Option Int`, `none` standing for `NaN`.
* Promises are modelled by explicit state: the queue of the
  `XAPIRateLimiter` holds item identifiers, and an item's future is
  settled exactly when the worker loop dispatches it, recorded in the
  `dispatched` list.  Effects of the cron handler (durable writes,
  alerts) are collected in a result record.
-/

namespace XManage

/-- `RateLimiterConfig` from `rate-limiter.ts`. -/
structure RateLimiterConfig where
  maxRequestsPerWindow : Nat
  windowDurationMs : Nat
  requestDelayMs : Nat
  maxRetries : Nat

/-- Mutable state of an `XAPIRateLimiter` instance.  `queue` is
`requestQueue` (items are identifiers of the queued closures);
`dispatched` records, in order, the items the worker loop has handed to
`makeRequestWithBackoff` — an item's future can only be settled after it
appears here. -/
structure RLState where
  queue : List Nat
  dispatched : List Nat
  requestCount : Nat
  windowStart : Int
  isProcessing : Bool

/-- State of a freshly constructed limiter: empty queue, `requestCount = 0`,
`windowStart = Date.now()` at construction time (`w0`). -/
def initState (w0 : Int) : RLState :=
  { queue := [], dispatched := [], requestCount := 0, windowStart := w0,
    isProcessing := false }

/-- One iteration of the `while` loop of `processQueue`, taken at time
`now = Date.now()`.  If the queue is empty the loop exits and clears
`isProcessing`; otherwise the window is reset when expired, and then the
head item is dispatched when `requestCount < maxRequestsPerWindow`
(the `else` branch merely waits for the window, changing no state). -/
def processQueueStep (cfg : RateLimiterConfig) (s : RLState) (now : Int) :
    RLState :=
  if s.queue.isEmpty then { s with isProcessing := false }
  else
    let s1 :=
      if now - s.windowStart ≥ (cfg.windowDurationMs : Int) then
        { s with requestCount := 0, windowStart := now }
      else s
    if s1.requestCount < cfg.maxRequestsPerWindow then
      match s1.queue with
      | [] => s1
      | x :: rest =>
          { s1 with queue := rest, dispatched := s1.dispatched ++ [x],
                    requestCount := s1.requestCount + 1 }
    else s1

/-- `makeRequest`: pushes the new item onto the tail of `requestQueue`
and calls `processQueue`, which begins processing unless a worker loop is
already running (`isProcessing`). -/
def makeRequest (s : RLState) (x : Nat) : RLState :=
  let s1 := { s with queue := s.queue ++ [x] }
  if s1.isProcessing then s1 else { s1 with isProcessing := true }

/-- `clearQueue`: empties `requestQueue` and clears `isProcessing`.
The source does nothing else — in particular it never calls the stored
`reject` callbacks, so `dispatched` (and therefore the set of settled
futures) is untouched. -/
def clearQueue (s : RLState) : RLState :=
  { s with queue := [], isProcessing := false }

/-- Externally visible events of the limiter: a producer enqueueing a
request (`makeRequest`) or the worker loop performing one iteration at a
given time. -/
inductive RLEvent where
  | enqueue (x : Nat)
  | step (now : Int)
  deriving DecidableEq

/-- Apply one event to the limiter state. -/
def applyEvent (cfg : RateLimiterConfig) (s : RLState) : RLEvent → RLState
  | .enqueue x => makeRequest s x
  | .step now => processQueueStep cfg s now

/-- Run the limiter from a state through a sequence of events. -/
def run (cfg : RateLimiterConfig) (s : RLState) (es : List RLEvent) :
    RLState :=
  es.foldl (applyEvent cfg) s

/-- The items enqueued by a sequence of events, in enqueue order. -/
def enqueuedOf (es : List RLEvent) : List Nat :=
  es.filterMap fun e =>
    match e with
    | .enqueue x => some x
    | .step _ => none

/-! ### Responses, rate-limit headers and the backoff wrapper -/

/-- The three `x-rate-limit-*` headers of a response; `none` models an
absent header (`headers.get` returning `null`). -/
structure Headers where
  rateLimitLimit : Option String
  rateLimitRemaining : Option String
  rateLimitReset : Option String

/-- The observable part of a platform `Response` used by the limiter. -/
structure Response where
  status : Nat
  ok : Bool
  statusText : String
  headers : Headers

/-- JavaScript `a || d` on a nullable string: the default is used when the
value is `null` or the empty string (both falsy). -/
def jsOr (o : Option String) (d : String) : String :=
  match o with
  | none => d
  | some s => if s = "" then d else s

/-- Numeric value of a run of decimal digits. -/
def digitsVal (ds : List Char) : Nat :=
  ds.foldl (fun acc c => acc * 10 + (c.toNat - '0'.toNat)) 0

/-- JavaScript `parseInt` on the decimal strings that occur in rate-limit
headers: skip leading spaces, read an optional sign and a run of digits;
`none` models the `NaN` returned when no digit is found. -/
def parseIntJs (s : String) : Option Int :=
  let cs := s.toList.dropWhile (fun c => c = ' ')
  let signed : Int × List Char :=
    match cs with
    | '-' :: rest => (-1, rest)
    | '+' :: rest => (1, rest)
    | _ => (1, cs)
  let ds := signed.2.takeWhile Char.isDigit
  if ds.isEmpty then none
  else some (signed.1 * (digitsVal ds : Int))

/-- `XAPIRateLimit` from `rate-limiter.ts`; each field is the result of
`parseInt` on a header, so `none` stands for `NaN`. -/
structure XAPIRateLimit where
  limit : Option Int
  remaining : Option Int
  reset : Option Int

/-- `parseRateLimitHeaders`: each field is
`parseInt(headers.get(name) || '0')`. -/
def parseRateLimitHeaders (h : Headers) : XAPIRateLimit :=
  { limit := parseIntJs (jsOr h.rateLimitLimit "0"),
    remaining := parseIntJs (jsOr h.rateLimitRemaining "0"),
    reset := parseIntJs (jsOr h.rateLimitReset "0") }

/-- `shouldBackoff`: `false` when `limit === 0`, otherwise whether
`remaining / limit < 0.15`.  `NaN` operands (`none`) make every
comparison false, as in JavaScript; the exact ratio is taken over `ℚ`. -/
def shouldBackoff (rl : XAPIRateLimit) : Bool :=
  if rl.limit = some 0 then false
  else
    match rl.remaining, rl.limit with
    | some r, some l => decide ((r : ℚ) / (l : ℚ) < 0.15)
    | _, _ => false

/-- Whether `pat` occurs as a contiguous run inside `s`
(JavaScript `String.prototype.includes`). -/
def listContains (pat : List Char) : List Char → Bool
  | [] => pat.isEmpty
  | c :: rest => pat.isPrefixOf (c :: rest) || listContains pat rest

/-- `s.includes(pat)` on strings. -/
def strIncludes (s pat : String) : Bool :=
  listContains pat.toList s.toList

/-- `isRetryableError`: the error message contains `'Rate limited'`,
`'HTTP 5'` or `'timeout'`. -/
def isRetryableError (msg : String) : Bool :=
  strIncludes msg "Rate limited" || strIncludes msg "HTTP 5" ||
    strIncludes msg "timeout"

/-- One pass through the `try` block of `makeRequestWithBackoff`: the
invocation of `requestFn` either throws (`Except.error`) or yields a
response, whose headers are parsed; the second component lists the extra
delays inserted (only the `2 * requestDelayMs` proactive-slowdown wait).
A 429 status throws `'Rate limited'`; any other non-ok status throws
`'HTTP {status}: {statusText}'`. -/
def tryOnce (cfg : RateLimiterConfig) (o : Except String Response) :
    Except String Response × List Nat :=
  match o with
  | .error e => (.error e, [])
  | .ok r =>
      let rl := parseRateLimitHeaders r.headers
      let ws := if shouldBackoff rl then [cfg.requestDelayMs * 2] else []
      if r.status = 429 then (.error "Rate limited", ws)
      else if r.ok = false then
        (.error ("HTTP " ++ toString r.status ++ ": " ++ r.statusText), ws)
      else (.ok r, ws)

/-- Backoff delay before retrying after the 0-based failed attempt `n`:
`Math.min(1000 * Math.pow(2, n), 60000)`. -/
def backoffTime (n : Nat) : Nat :=
  min (1000 * 2 ^ n) 60000

/-- `makeRequestWithBackoff`.  `outcomes k` is the result of the `k`-th
invocation of `requestFn` (including thrown errors and non-ok statuses,
folded through the `try` block by `tryOnce`).  Returns the settled
result, the total number of invocations, and the list of delays awaited,
in order.  A retryable failure with `attempt < maxRetries` waits
`backoffTime attempt` and recurses with `attempt + 1`; otherwise the
error propagates to the caller. -/
def makeRequestWithBackoff (cfg : RateLimiterConfig)
    (outcomes : Nat → Except String Response) (attempt : Nat) :
    Except String Response × Nat × List Nat :=
  let t := tryOnce cfg (outcomes attempt)
  match t.1 with
  | .ok r => (.ok r, 1, t.2)
  | .error e =>
      if h1 : attempt < cfg.maxRetries then
        if isRetryableError e then
          let q := makeRequestWithBackoff cfg outcomes (attempt + 1)
          (q.1, q.2.1 + 1, t.2 ++ backoffTime attempt :: q.2.2)
        else (.error e, 1, t.2)
      else (.error e, 1, t.2)
termination_by cfg.maxRetries + 1 - attempt
decreasing_by simp_wf; omega

/-- `DEFAULT_RATE_LIMIT_CONFIG` from `rate-limiter.ts`. -/
def DEFAULT_RATE_LIMIT_CONFIG : RateLimiterConfig :=
  { maxRequestsPerWindow := 200, windowDurationMs := 15 * 60 * 1000,
    requestDelayMs := 4500, maxRetries := 3 }

/-! ### The daily sync orchestrator (`handleDailyXSync` in the cron
handlers file) -/

/-- A connected X account as returned by `getConnectedXAccounts`. -/
structure XAccount where
  id : String
  username : String
  userId : String

/-- The `syncProgress` accumulator of `handleDailyXSync`. -/
structure SyncProgress where
  totalAccounts : Nat
  processedAccounts : Nat
  successfulAccounts : Nat
  failedAccounts : Nat
  totalTweets : Nat
  errors : List String

/-- One iteration of the per-account loop: `sync a` is the result of
`syncAccountData` (number of tweets processed, or the thrown error's
message).  On success the processed/successful counters and the tweet
total advance; on failure the processed/failed counters advance and
`"{username}: {message}"` is appended to `errors` — the loop then
continues with the next account. -/
def syncStep (sync : XAccount → Except String Nat) (p : SyncProgress)
    (a : XAccount) : SyncProgress :=
  match sync a with
  | .ok n =>
      { p with processedAccounts := p.processedAccounts + 1,
               successfulAccounts := p.successfulAccounts + 1,
               totalTweets := p.totalTweets + n }
  | .error m =>
      { p with processedAccounts := p.processedAccounts + 1,
               failedAccounts := p.failedAccounts + 1,
               errors := p.errors ++ [a.username ++ ": " ++ m] }

/-- The whole per-account loop, started from the initial `syncProgress`
(`totalAccounts` set to the list length, every counter `0`). -/
def syncLoop (sync : XAccount → Except String Nat) (accs : List XAccount) :
    SyncProgress :=
  accs.foldl (syncStep sync) ⟨accs.length, 0, 0, 0, 0, []⟩

/-- A record passed to `saveSyncResult`: the spread of `syncProgress`
plus `id`/`timestamp`/`duration`, and — only on the catastrophic path —
an extra `error` field. -/
structure SyncResult where
  id : String
  timestamp : String
  duration : Int
  totalAccounts : Nat
  processedAccounts : Nat
  successfulAccounts : Nat
  failedAccounts : Nat
  totalTweets : Nat
  errors : List String
  error : Option String

/-- The observable effects of one invocation of `handleDailyXSync`:
the records written via `saveSyncResult` (in order), the alert messages
sent via `sendSyncAlert` (in order), and whether the handler returned
normally or re-threw an error. -/
structure SyncOutcome where
  saved : List SyncResult
  alerts : List String
  result : Except String Unit

/-- `handleDailyXSync`.  `accountsResult` is the result of
`getConnectedXAccounts` (its thrown error's message on failure); `sync`
is `syncAccountData` per account.  `syncId`, `timestamp` and `duration`
stand for the environment-supplied `Date` values.  If listing accounts
throws, the catch block saves an all-zero record carrying the message,
sends the `'Daily sync completely failed'` alert and re-throws.  If the
account list is empty the handler returns at once — nothing is saved.
Otherwise the loop runs, the aggregated record is saved, and the
`'High failure rate in daily sync'` alert is sent exactly when
`failedAccounts > totalAccounts * 0.2` (the literal `0.2` is the exact
rational `1/5`). -/
def handleDailyXSync (syncId timestamp : String) (duration : Int)
    (accountsResult : Except String (List XAccount))
    (sync : XAccount → Except String Nat) : SyncOutcome :=
  match accountsResult with
  | .error e =>
      { saved := [{ id := syncId, timestamp := timestamp,
                    duration := duration, totalAccounts := 0,
                    processedAccounts := 0, successfulAccounts := 0,
                    failedAccounts := 0, totalTweets := 0, errors := [e],
                    error := some e }],
        alerts := ["Daily sync completely failed"],
        result := .error e }
  | .ok connectedAccounts =>
      if connectedAccounts.length = 0 then
        { saved := [], alerts := [], result := .ok () }
      else
        let p := syncLoop sync connectedAccounts
        { saved := [{ id := syncId, timestamp := timestamp,
                      duration := duration,
                      totalAccounts := p.totalAccounts,
                      processedAccounts := p.processedAccounts,
                      successfulAccounts := p.successfulAccounts,
                      failedAccounts := p.failedAccounts,
                      totalTweets := p.totalTweets, errors := p.errors,
                      error := none }],
          alerts :=
            if (p.failedAccounts : ℚ) > (p.totalAccounts : ℚ) * 0.2 then
              ["High failure rate in daily sync"]
            else [],
          result := .ok () }

/-- Whether `sync` succeeds on account `a`. -/
def isOkB (sync : XAccount → Except String Nat) (a : XAccount) : Bool :=
  match sync a with
  | .ok _ => true
  | .error _ => false

/-- The `errors` entry contributed by account `a`, if any. -/
def errEntry (sync : XAccount → Except String Nat) (a : XAccount) :
    Option String :=
  match sync a with
  | .ok _ => none
  | .error m => some (a.username ++ ": " ++ m)

/-- Tweets processed for account `a` (`0` on failure). -/
def tweetsOf (sync : XAccount → Except String Nat) (a : XAccount) : Nat :=
  match sync a with
  | .ok n => n
  | .error _ => 0

/-! ### The freshness health check -/

/-- `checkLastSyncHealth`.  The argument is the stored
`last-successful-sync` marker's timestamp in Unix milliseconds (`none`
when no marker exists, which — like any parse failure — yields `false`);
`now` is `Date.now()`.  Healthy exactly when
`(now - lastSyncTime) / (1000 * 60 * 60) < 25`. -/
def checkLastSyncHealth (lastSync : Option Int) (now : Int) : Bool :=
  match lastSync with
  | none => false
  | some t =>
      let hoursSinceLastSync : ℚ := ((now - t : Int) : ℚ) / (1000 * 60 * 60)
      decide (hoursSinceLastSync < 25)

/-! ### Concrete inputs used by witnesses and counterexamples -/

/-- Five connected accounts whose ids and usernames differ. -/
def accs5 : List XAccount :=
  [⟨"a1", "u1", "x1"⟩, ⟨"a2", "u2", "x2"⟩, ⟨"a3", "u3", "x3"⟩,
   ⟨"a4", "u4", "x4"⟩, ⟨"a5", "u5", "x5"⟩]

/-- Per-account sync in which accounts 2 and 4 fail. -/
def sync5 : XAccount → Except String Nat := fun a =>
  if a.username == "u2" || a.username == "u4" then .error "boom" else .ok 1

/-- Ten connected accounts. -/
def accs10 : List XAccount :=
  ["1", "2", "3", "4", "5", "6", "7", "8", "9", "10"].map fun n =>
    ⟨"a" ++ n, "u" ++ n, "x" ++ n⟩

/-- Per-account sync in which exactly accounts 1–3 fail. -/
def sync10fail3 : XAccount → Except String Nat := fun a =>
  if a.username == "u1" || a.username == "u2" || a.username == "u3" then
    .error "boom"
  else .ok 0

/-- Per-account sync in which exactly accounts 1–2 fail. -/
def sync10fail2 : XAccount → Except String Nat := fun a =>
  if a.username == "u1" || a.username == "u2" then .error "boom" else .ok 0

/-- A unit of work that is rate limited on every invocation. -/
def alwaysRateLimited : Nat → Except String Response := fun _ =>
  Except.error "Rate limited"

/-- A response with no `x-rate-limit-limit` header. -/
def respNoLimitHeader : Response :=
  ⟨200, true, "OK", ⟨none, some "5", none⟩⟩

end XManage

namespace XManage

theorem processQueueStep_count_le (cfg : RateLimiterConfig) (s : RLState)
    (now : Int) (h : s.requestCount ≤ cfg.maxRequestsPerWindow) :
    (processQueueStep cfg s now).requestCount ≤ cfg.maxRequestsPerWindow := by
  unfold processQueueStep
  split
  · exact h
  · dsimp only
    split
    · split
      · next hlt =>
          split
          · exact Nat.zero_le _
          · exact hlt
      · exact Nat.zero_le _
    · split
      · next hlt =>
          split
          · exact h
          · exact hlt
      · exact h

theorem applyEvent_count_le (cfg : RateLimiterConfig) (s : RLState)
    (e : RLEvent) (h : s.requestCount ≤ cfg.maxRequestsPerWindow) :
    (applyEvent cfg s e).requestCount ≤ cfg.maxRequestsPerWindow := by
  cases e with
  | enqueue x =>
      unfold applyEvent makeRequest
      dsimp only
      split <;> exact h
  | step now => exact processQueueStep_count_le cfg s now h

theorem run_count_le (cfg : RateLimiterConfig) (s : RLState)
    (es : List RLEvent) (h : s.requestCount ≤ cfg.maxRequestsPerWindow) :
    (run cfg s es).requestCount ≤ cfg.maxRequestsPerWindow := by
  induction es generalizing s with
  | nil => exact h
  | cons e es ih =>
      exact ih (applyEvent cfg s e) (applyEvent_count_le cfg s e h)

/-- Claim C1: `requestCount ≤ maxRequestsPerWindow` is an invariant of the
worker loop: every iteration of `processQueue` preserves it (the loop
increments the count only below the limit, and resets the window —
count to `0`, `windowStart` to `now` — when `now - windowStart` reaches
`windowDurationMs`); consequently every state reachable from a fresh
limiter satisfies it. -/
theorem requestCount_invariant :
    (∀ (cfg : RateLimiterConfig) (s : RLState) (now : Int),
        s.requestCount ≤ cfg.maxRequestsPerWindow →
        (processQueueStep cfg s now).requestCount ≤ cfg.maxRequestsPerWindow)
    ∧
    (∀ (cfg : RateLimiterConfig) (w0 : Int) (es : List RLEvent),
        (run cfg (initState w0) es).requestCount ≤ cfg.maxRequestsPerWindow) :=
  ⟨processQueueStep_count_le,
   fun cfg w0 es => run_count_le cfg (initState w0) es (Nat.zero_le _)⟩

/-- Concrete instance of claim C1: a state at the limit, stepped at a time
inside the window, stays at the limit. -/
theorem requestCount_invariant_witness :
    (⟨[1, 2], [0], 3, 0, true⟩ : RLState).requestCount ≤
      (⟨3, 1000, 10, 3⟩ : RateLimiterConfig).maxRequestsPerWindow ∧
    (processQueueStep ⟨3, 1000, 10, 3⟩ ⟨[1, 2], [0], 3, 0, true⟩
        5).requestCount ≤ 3 :=
  ⟨by decide,
   requestCount_invariant.1 ⟨3, 1000, 10, 3⟩ ⟨[1, 2], [0], 3, 0, true⟩ 5
     (by decide)⟩

theorem processQueueStep_dq (cfg : RateLimiterConfig) (s : RLState)
    (now : Int) :
    (processQueueStep cfg s now).dispatched ++
        (processQueueStep cfg s now).queue = s.dispatched ++ s.queue := by
  unfold processQueueStep
  split
  · rfl
  · dsimp only
    split
    · split
      · split
        · rfl
        · next heq => rw [heq]; simp
      · rfl
    · split
      · split
        · rfl
        · next heq => rw [heq]; simp
      · rfl

theorem run_dq (cfg : RateLimiterConfig) (s : RLState) (es : List RLEvent) :
    (run cfg s es).dispatched ++ (run cfg s es).queue =
      s.dispatched ++ s.queue ++ enqueuedOf es := by
  induction es generalizing s with
  | nil => simp [run, enqueuedOf]
  | cons e es ih =>
      have hrun : run cfg s (e :: es) = run cfg (applyEvent cfg s e) es := rfl
      rw [hrun, ih]
      cases e with
      | enqueue x =>
          unfold applyEvent makeRequest
          dsimp only
          split <;> simp [enqueuedOf, List.filterMap_cons]
      | step now =>
          have hdq := processQueueStep_dq cfg s now
          show (processQueueStep cfg s now).dispatched ++
              (processQueueStep cfg s now).queue ++ enqueuedOf es = _
          rw [hdq]
          simp [enqueuedOf, List.filterMap_cons]

/-- Claim C8: requests are dispatched strictly in enqueue order.  Starting
from a fresh limiter, after any interleaving of producer enqueues
(`makeRequest`) and worker-loop iterations, the sequence of items handed
to the backoff wrapper is a prefix of the sequence of enqueued items: a
later-enqueued item is never dispatched before an earlier one. -/
theorem fifo_dispatch_order (cfg : RateLimiterConfig) (w0 : Int)
    (es : List RLEvent) :
    (run cfg (initState w0) es).dispatched <+: enqueuedOf es :=
  ⟨(run cfg (initState w0) es).queue, by
    have h := run_dq cfg (initState w0) es
    simpa [initState] using h⟩

theorem applyEvent_not_mem (cfg : RateLimiterConfig) (s : RLState)
    (e : RLEvent) (x : Nat) (hq : x ∉ s.queue) (hd : x ∉ s.dispatched)
    (he : e ≠ RLEvent.enqueue x) :
    x ∉ (applyEvent cfg s e).queue ∧ x ∉ (applyEvent cfg s e).dispatched := by
  cases e with
  | enqueue y =>
      have hxy : x ≠ y := fun h => he (by rw [h])
      unfold applyEvent makeRequest
      dsimp only
      split <;> exact ⟨by simp [List.mem_append, hq, hxy], hd⟩
  | step now =>
      unfold applyEvent processQueueStep
      dsimp only
      split
      · exact ⟨hq, hd⟩
      · split
        · split
          · split
            · exact ⟨hq, hd⟩
            · next heq =>
                refine ⟨?_, ?_⟩
                · intro hx
                  exact hq (by rw [heq]; exact List.mem_cons_of_mem _ hx)
                · intro hx
                  rcases List.mem_append.mp hx with h | h
                  · exact hd h
                  · have hxy : x ∈ s.queue := by
                      rw [heq]; simp at h; simp [h]
                    exact hq hxy
          · exact ⟨hq, hd⟩
        · split
          · split
            · exact ⟨hq, hd⟩
            · next heq =>
                refine ⟨?_, ?_⟩
                · intro hx
                  exact hq (by rw [heq]; exact List.mem_cons_of_mem _ hx)
                · intro hx
                  rcases List.mem_append.mp hx with h | h
                  · exact hd h
                  · have hxy : x ∈ s.queue := by
                      rw [heq]; simp at h; simp [h]
                    exact hq hxy
          · exact ⟨hq, hd⟩

theorem run_not_mem (cfg : RateLimiterConfig) (s : RLState)
    (es : List RLEvent) (x : Nat) (hq : x ∉ s.queue)
    (hd : x ∉ s.dispatched) (hes : ∀ e ∈ es, e ≠ RLEvent.enqueue x) :
    x ∉ (run cfg s es).queue ∧ x ∉ (run cfg s es).dispatched := by
  induction es generalizing s with
  | nil => exact ⟨hq, hd⟩
  | cons e es ih =>
      have he := hes e (List.mem_cons_self _ _)
      have h2 := applyEvent_not_mem cfg s e x hq hd he
      exact ih (applyEvent cfg s e) h2.1 h2.2
        (fun e' he' => hes e' (List.mem_cons_of_mem _ he'))

/-- Claim C5 is false of the code: `clearQueue` does not settle pending
futures.  Clearing a state whose queue holds the pending item `7` drops
the item without recording any settlement (`dispatched` stays empty —
the stored `reject` callback is never invoked, so no `Cancelled`
rejection exists), and no later worker iteration can ever settle it. -/
theorem clearQueue_no_rejection_cex :
    (7 : Nat) ∈ (⟨[7], [], 0, 0, true⟩ : RLState).queue ∧
    clearQueue ⟨[7], [], 0, 0, true⟩ = (⟨[], [], 0, 0, false⟩ : RLState) ∧
    7 ∉ (run DEFAULT_RATE_LIMIT_CONFIG (clearQueue ⟨[7], [], 0, 0, true⟩)
          [RLEvent.step 0, RLEvent.step 1]).dispatched :=
  ⟨by decide, rfl, by decide⟩

/-- Claim C5 (amended): `clearQueue` immediately discards every pending
item and resets the processing state, but it does not settle the pending
items' futures: the settlement record is unchanged, and a dropped item
that was never dispatched is never settled by any later processing
unless re-enqueued. -/
theorem clearQueue_drops_pending (cfg : RateLimiterConfig) (s : RLState)
    (es : List RLEvent) (x : Nat) (hd : x ∉ s.dispatched)
    (hes : ∀ e ∈ es, e ≠ RLEvent.enqueue x) :
    (clearQueue s).queue = [] ∧ (clearQueue s).isProcessing = false ∧
    (clearQueue s).dispatched = s.dispatched ∧
    x ∉ (run cfg (clearQueue s) es).dispatched := by
  refine ⟨rfl, rfl, rfl, ?_⟩
  exact (run_not_mem cfg (clearQueue s) es x (by simp [clearQueue]) hd
    hes).2

/-- Concrete instance of claim C5 (amended): item `7` is pending, gets
cleared, and one further worker iteration settles nothing. -/
theorem clearQueue_drops_pending_witness :
    (7 : Nat) ∉ (⟨[7], [], 0, 0, true⟩ : RLState).dispatched ∧
    (∀ e ∈ [RLEvent.step 0], e ≠ RLEvent.enqueue 7) ∧
    7 ∉ (run DEFAULT_RATE_LIMIT_CONFIG (clearQueue ⟨[7], [], 0, 0, true⟩)
          [RLEvent.step 0]).dispatched :=
  ⟨by decide, by decide,
   (clearQueue_drops_pending DEFAULT_RATE_LIMIT_CONFIG
      ⟨[7], [], 0, 0, true⟩ [RLEvent.step 0] 7 (by decide)
      (by decide)).2.2.2⟩

theorem foldl_syncStep (sync : XAccount → Except String Nat)
    (accs : List XAccount) (p : SyncProgress) :
    accs.foldl (syncStep sync) p =
      { totalAccounts := p.totalAccounts,
        processedAccounts := p.processedAccounts + accs.length,
        successfulAccounts :=
          p.successfulAccounts + accs.countP (fun a => isOkB sync a),
        failedAccounts :=
          p.failedAccounts + accs.countP (fun a => !isOkB sync a),
        totalTweets := p.totalTweets + (accs.map (tweetsOf sync)).sum,
        errors := p.errors ++ accs.filterMap (errEntry sync) } := by
  induction accs generalizing p with
  | nil => simp
  | cons a accs ih =>
      rw [List.foldl_cons, ih]
      cases h : sync a with
      | ok n =>
          simp [syncStep, h, isOkB, errEntry, tweetsOf, List.countP_cons,
            List.filterMap_cons]
          omega
      | error m =>
          simp [syncStep, h, isOkB, errEntry, tweetsOf, List.countP_cons,
            List.filterMap_cons, List.append_assoc]
          omega

theorem syncLoop_spec (sync : XAccount → Except String Nat)
    (accs : List XAccount) :
    syncLoop sync accs =
      { totalAccounts := accs.length,
        processedAccounts := accs.length,
        successfulAccounts := accs.countP (fun a => isOkB sync a),
        failedAccounts := accs.countP (fun a => !isOkB sync a),
        totalTweets := (accs.map (tweetsOf sync)).sum,
        errors := accs.filterMap (errEntry sync) } := by
  unfold syncLoop
  rw [foldl_syncStep]
  simp

theorem errEntry_length (sync : XAccount → Except String Nat)
    (accs : List XAccount) :
    (accs.filterMap (errEntry sync)).length =
      accs.countP (fun a => !isOkB sync a) := by
  induction accs with
  | nil => simp
  | cons a accs ih =>
      cases h : sync a <;>
        simp [errEntry, isOkB, h, List.filterMap_cons, List.countP_cons, ih]

/-- Claim C2 (amended): for a non-empty account list, the persisted
`SyncRun` has `totalAccounts` and `processedAccounts` equal to the list
length, `successfulAccounts`/`failedAccounts` counting the non-failing
and failing accounts, and `errors` holding exactly `failedAccounts`
entries, each of the form `"{username}: {message}"` for the
corresponding failing account — the loop continues past every failure
(the `errors` characterization covers the whole list). -/
theorem bulkhead_run_summary (syncId ts : String) (dur : Int)
    (accs : List XAccount) (sync : XAccount → Except String Nat)
    (h : accs ≠ []) :
    (handleDailyXSync syncId ts dur (Except.ok accs) sync).saved =
      [{ id := syncId, timestamp := ts, duration := dur,
         totalAccounts := accs.length,
         processedAccounts := accs.length,
         successfulAccounts := accs.countP (fun a => isOkB sync a),
         failedAccounts := accs.countP (fun a => !isOkB sync a),
         totalTweets := (accs.map (tweetsOf sync)).sum,
         errors := accs.filterMap (errEntry sync), error := none }] ∧
    (accs.filterMap (errEntry sync)).length =
      accs.countP (fun a => !isOkB sync a) ∧
    (∀ s' ∈ accs.filterMap (errEntry sync), ∃ a ∈ accs, ∃ m,
        sync a = Except.error m ∧ s' = a.username ++ ": " ++ m) := by
  have hlen : ¬(accs.length = 0) := by
    simpa [List.length_eq_zero] using h
  refine ⟨?_, errEntry_length sync accs, ?_⟩
  · simp [handleDailyXSync, hlen, syncLoop_spec]
  · intro s' hs'
    rcases List.mem_filterMap.mp hs' with ⟨a, ha, hfa⟩
    refine ⟨a, ha, ?_⟩
    cases hsa : sync a with
    | ok n => simp [errEntry, hsa] at hfa
    | error m =>
        refine ⟨m, rfl, ?_⟩
        simp [errEntry, hsa] at hfa
        exact hfa.symm

/-- Concrete instance of claim C2 (amended): 5 accounts of which accounts
2 and 4 fail give `totalAccounts = processedAccounts = 5`,
`successfulAccounts = 3`, `failedAccounts = 2`, and two error entries
prefixed by the failing accounts' usernames. -/
theorem bulkhead_run_summary_witness :
    accs5 ≠ [] ∧
    (handleDailyXSync "s" "t" 0 (Except.ok accs5) sync5).saved =
      [{ id := "s", timestamp := "t", duration := 0, totalAccounts := 5,
         processedAccounts := 5, successfulAccounts := 3,
         failedAccounts := 2, totalTweets := 3,
         errors := ["u2: boom", "u4: boom"], error := none }] := by
  have h5 : accs5 ≠ [] := by simp [accs5]
  refine ⟨h5, ?_⟩
  rw [(bulkhead_run_summary "s" "t" 0 accs5 sync5 h5).1]
  rfl

/-- Claim C2 is false as stated: the error entries are prefixed by the
failing account's `username`, not by its `id`.  With accounts whose ids
(`a2`, `a4`) differ from their usernames (`u2`, `u4`), the recorded
entries start with the usernames and not with the ids. -/
theorem errors_not_prefixed_by_id_cex :
    (handleDailyXSync "s" "t" 0 (Except.ok accs5) sync5).saved.map
        SyncResult.errors = [["u2: boom", "u4: boom"]] ∧
    accs5.map XAccount.id = ["a1", "a2", "a3", "a4", "a5"] ∧
    "a2".toList.isPrefixOf "u2: boom".toList = false ∧
    "a4".toList.isPrefixOf "u4: boom".toList = false := by
  refine ⟨rfl, rfl, rfl, rfl⟩

/-- Claim C3 is false as stated: when listing connected accounts succeeds
with the empty list, `handleDailyXSync` returns before `saveSyncResult`
is ever called — no `SyncRun` record is persisted at all. -/
theorem empty_run_not_persisted_cex :
    handleDailyXSync "sync-1" "t" 0 (Except.ok [])
        (fun _ => Except.ok 0) =
      { saved := [], alerts := [], result := Except.ok () } := rfl

/-- Claim C3 (amended): an empty connected-account list is not an error —
the run returns normally — but nothing is persisted and no alert is
sent: the handler short-circuits without writing any `SyncRun` record,
so downstream reporting observes no record for that invocation. -/
theorem empty_run_skips_persistence (syncId ts : String) (dur : Int)
    (sync : XAccount → Except String Nat) :
    handleDailyXSync syncId ts dur (Except.ok []) sync =
      { saved := [], alerts := [], result := Except.ok () } := rfl

/-- Claim C6: when listing connected accounts throws, exactly one
`SyncRun` is persisted with every counter at `0` and `errors = [message]`
(length exactly 1), the `'Daily sync completely failed'` alert is sent
exactly once, and the error is re-thrown to the caller. -/
theorem catastrophic_failure_recorded (syncId ts : String) (dur : Int)
    (e : String) (sync : XAccount → Except String Nat) :
    handleDailyXSync syncId ts dur (Except.error e) sync =
      { saved := [{ id := syncId, timestamp := ts, duration := dur,
                    totalAccounts := 0, processedAccounts := 0,
                    successfulAccounts := 0, failedAccounts := 0,
                    totalTweets := 0, errors := [e], error := some e }],
        alerts := ["Daily sync completely failed"],
        result := Except.error e } := rfl

/-- Claim C7: for a completed run over a non-empty account list, the
high-failure-rate alert is sent exactly when
`failedAccounts / totalAccounts > 0.2` (strictly): the alert list equals
the singleton message under that ratio condition and is empty
otherwise. -/
theorem high_failure_alert_iff (syncId ts : String) (dur : Int)
    (accs : List XAccount) (sync : XAccount → Except String Nat)
    (h : accs ≠ []) :
    (handleDailyXSync syncId ts dur (Except.ok accs) sync).alerts =
      (if ((syncLoop sync accs).failedAccounts : ℚ) /
            ((syncLoop sync accs).totalAccounts : ℚ) > 0.2 then
          ["High failure rate in daily sync"] else []) ∧
    ((handleDailyXSync syncId ts dur (Except.ok accs) sync).alerts =
        ["High failure rate in daily sync"] ↔
      ((syncLoop sync accs).failedAccounts : ℚ) /
          ((syncLoop sync accs).totalAccounts : ℚ) > 0.2) := by
  have hlen : ¬(accs.length = 0) := by
    simpa [List.length_eq_zero] using h
  have htot : (syncLoop sync accs).totalAccounts = accs.length := by
    rw [syncLoop_spec]
  have hpos : (0 : ℚ) < ((syncLoop sync accs).totalAccounts : ℚ) := by
    rw [htot]
    exact_mod_cast Nat.pos_of_ne_zero hlen
  have hiff : (((syncLoop sync accs).failedAccounts : ℚ) >
      ((syncLoop sync accs).totalAccounts : ℚ) * 0.2) ↔
      ((syncLoop sync accs).failedAccounts : ℚ) /
        ((syncLoop sync accs).totalAccounts : ℚ) > 0.2 := by
    rw [gt_iff_lt, gt_iff_lt, lt_div_iff₀ hpos]
    constructor <;> intro hx <;> linarith
  have halerts :
      (handleDailyXSync syncId ts dur (Except.ok accs) sync).alerts =
      (if ((syncLoop sync accs).failedAccounts : ℚ) >
            ((syncLoop sync accs).totalAccounts : ℚ) * 0.2 then
          ["High failure rate in daily sync"] else []) := by
    simp [handleDailyXSync, hlen]
  by_cases hc : ((syncLoop sync accs).failedAccounts : ℚ) >
      ((syncLoop sync accs).totalAccounts : ℚ) * 0.2
  · rw [halerts, if_pos hc, if_pos (hiff.mp hc)]
    simp [hiff.mp hc]
  · rw [halerts, if_neg hc, if_neg (fun hrr => hc (hiff.mpr hrr))]
    simp
    exact not_lt.mp (fun hrr => hc (hiff.mpr hrr))

/-- Concrete instance of claim C7: 3 failures of 10 (ratio 0.3 > 0.2)
raise the alert; 2 failures of 10 (ratio 0.2, not strictly greater) do
not. -/
theorem high_failure_alert_iff_witness :
    accs10 ≠ [] ∧
    (handleDailyXSync "s" "t" 0 (Except.ok accs10) sync10fail3).alerts =
      ["High failure rate in daily sync"] ∧
    (handleDailyXSync "s" "t" 0 (Except.ok accs10) sync10fail2).alerts =
      [] := by
  have h10 : accs10 ≠ [] := by simp [accs10]
  refine ⟨h10, ?_, ?_⟩
  · refine (high_failure_alert_iff "s" "t" 0 accs10 sync10fail3 h10).2.mpr
      ?_
    have hf : (syncLoop sync10fail3 accs10).failedAccounts = 3 := by decide
    have ht : (syncLoop sync10fail3 accs10).totalAccounts = 10 := by decide
    rw [hf, ht]
    norm_num
  · rw [(high_failure_alert_iff "s" "t" 0 accs10 sync10fail2 h10).1]
    have hf : (syncLoop sync10fail2 accs10).failedAccounts = 2 := by decide
    have ht : (syncLoop sync10fail2 accs10).totalAccounts = 10 := by decide
    rw [hf, ht]
    norm_num

theorem mrwb_all_retryable (cfg : RateLimiterConfig)
    (outcomes : Nat → Except String Response)
    (h : ∀ k, ∃ m, outcomes k = Except.error m ∧ isRetryableError m = true) :
    ∀ n attempt, attempt ≤ cfg.maxRetries → cfg.maxRetries - attempt = n →
    (∃ m, (makeRequestWithBackoff cfg outcomes attempt).1 =
        Except.error m) ∧
    (makeRequestWithBackoff cfg outcomes attempt).2.1 =
      cfg.maxRetries + 1 - attempt ∧
    (makeRequestWithBackoff cfg outcomes attempt).2.2 =
      (List.range' attempt (cfg.maxRetries - attempt)).map backoffTime := by
  intro n
  induction n with
  | zero =>
      intro attempt ha h0
      obtain ⟨m, hm, hr⟩ := h attempt
      rw [makeRequestWithBackoff.eq_def, hm]
      dsimp only [tryOnce]
      rw [dif_neg (by omega : ¬ attempt < cfg.maxRetries)]
      refine ⟨⟨m, rfl⟩, ?_, ?_⟩
      · show 1 = cfg.maxRetries + 1 - attempt
        omega
      · show ([] : List Nat) =
          (List.range' attempt (cfg.maxRetries - attempt)).map backoffTime
        rw [h0]
        rfl
  | succ n ih =>
      intro attempt ha h0
      have hlt : attempt < cfg.maxRetries := by omega
      obtain ⟨m, hm, hr⟩ := h attempt
      rw [makeRequestWithBackoff.eq_def, hm]
      dsimp only [tryOnce]
      rw [dif_pos hlt, if_pos hr]
      obtain ⟨⟨m2, hm2⟩, hcount, hws⟩ :=
        ih (attempt + 1) (by omega) (by omega)
      dsimp only
      refine ⟨⟨m2, hm2⟩, ?_, ?_⟩
      · rw [hcount]; omega
      · rw [hws]
        have hn : cfg.maxRetries - attempt = n + 1 := h0
        rw [hn]
        have hn2 : cfg.maxRetries - (attempt + 1) = n := by omega
        rw [hn2, List.range'_succ]
        simp

/-- Claim C4: a unit of work whose every invocation fails with a
retryable error is invoked exactly `maxRetries + 1` times, the caller's
future settles as failed, and before the `(n+1)`-th invocation the
wrapper waits `backoffTime n = min (1000 * 2 ^ n) 60000` milliseconds
(`n` the 0-based failed attempt index). -/
theorem retry_exhaustion (cfg : RateLimiterConfig)
    (outcomes : Nat → Except String Response)
    (h : ∀ k, ∃ m, outcomes k = Except.error m ∧
        isRetryableError m = true) :
    (∃ m, (makeRequestWithBackoff cfg outcomes 0).1 = Except.error m) ∧
    (makeRequestWithBackoff cfg outcomes 0).2.1 = cfg.maxRetries + 1 ∧
    (makeRequestWithBackoff cfg outcomes 0).2.2 =
      (List.range cfg.maxRetries).map backoffTime := by
  have H := mrwb_all_retryable cfg outcomes h (cfg.maxRetries - 0) 0
    (Nat.zero_le _) rfl
  simpa [List.range_eq_range'] using H

/-- Concrete instance of claim C4: with the default configuration
(`maxRetries = 3`), a unit of work that is rate limited on every
invocation is invoked exactly 4 times. -/
theorem retry_exhaustion_witness :
    (∀ k, ∃ m, alwaysRateLimited k = Except.error m ∧
        isRetryableError m = true) ∧
    (makeRequestWithBackoff DEFAULT_RATE_LIMIT_CONFIG alwaysRateLimited
        0).2.1 = DEFAULT_RATE_LIMIT_CONFIG.maxRetries + 1 := by
  have hh : ∀ k, ∃ m, alwaysRateLimited k = Except.error m ∧
      isRetryableError m = true :=
    fun _ => ⟨"Rate limited", rfl, by decide⟩
  exact ⟨hh, (retry_exhaustion DEFAULT_RATE_LIMIT_CONFIG alwaysRateLimited
    hh).2.1⟩

theorem checkLastSyncHealth_some (t now : Int) :
    checkLastSyncHealth (some t) now = true ↔ now - t < 90000000 := by
  simp only [checkLastSyncHealth, decide_eq_true_eq]
  rw [div_lt_iff₀ (by norm_num : (0 : ℚ) < 1000 * 60 * 60)]
  constructor
  · intro hlt
    have h2 : ((now - t : Int) : ℚ) < 90000000 := by linarith
    exact_mod_cast h2
  · intro hlt
    have h2 : ((now - t : Int) : ℚ) < 90000000 := by exact_mod_cast hlt
    linarith

/-- Claim C9: for a stored `last-successful-sync` marker, the freshness
check returns `true` exactly when the marker's age is strictly below 25
hours (`25 * (1000 * 60 * 60)` ms); in particular a marker 26 hours old
yields `false` and one 24 hours old yields `true`. -/
theorem lastSync_freshness (t now : Int) :
    (checkLastSyncHealth (some t) now = true ↔
      now - t < 25 * (1000 * 60 * 60)) ∧
    checkLastSyncHealth (some (now - 26 * (1000 * 60 * 60))) now = false ∧
    checkLastSyncHealth (some (now - 24 * (1000 * 60 * 60))) now =
      true := by
  refine ⟨by simpa using checkLastSyncHealth_some t now, ?_, ?_⟩
  · by_cases hb :
        checkLastSyncHealth (some (now - 26 * (1000 * 60 * 60))) now = true
    · exfalso
      have h2 := (checkLastSyncHealth_some
        (now - 26 * (1000 * 60 * 60)) now).mp hb
      omega
    · simpa using hb
  · exact (checkLastSyncHealth_some (now - 24 * (1000 * 60 * 60))
      now).mpr (by omega)

/-- Claim C10: a response whose `x-rate-limit-limit` header is absent (so
that `headers.get(..) || '0'` parses to `0`) or parses to limit `0`
makes `shouldBackoff` return `false` through its `limit === 0` guard —
the `remaining / limit` division is never reached — and the extra
`2 * requestDelayMs` proactive-slowdown delay is not inserted. -/
theorem zero_limit_no_backoff (cfg : RateLimiterConfig) (r : Response)
    (h : r.headers.rateLimitLimit = none ∨
        parseIntJs (jsOr r.headers.rateLimitLimit "0") = some 0) :
    shouldBackoff (parseRateLimitHeaders r.headers) = false ∧
    (tryOnce cfg (Except.ok r)).2 = [] := by
  have hlim : parseIntJs (jsOr r.headers.rateLimitLimit "0") = some 0 := by
    rcases h with h | h
    · rw [h]; rfl
    · exact h
  have hsb : shouldBackoff (parseRateLimitHeaders r.headers) = false := by
    unfold shouldBackoff parseRateLimitHeaders
    dsimp only
    rw [if_pos hlim]
  refine ⟨hsb, ?_⟩
  unfold tryOnce
  dsimp only
  rw [hsb]
  simp only [Bool.false_eq_true, if_false]
  split
  · rfl
  · split
    · rfl
    · rfl

/-- Concrete instance of claim C10: a response with no
`x-rate-limit-limit` header triggers neither the backoff predicate nor
the extra delay. -/
theorem zero_limit_no_backoff_witness :
    (respNoLimitHeader.headers.rateLimitLimit = none ∨
      parseIntJs (jsOr respNoLimitHeader.headers.rateLimitLimit "0") =
        some 0) ∧
    shouldBackoff (parseRateLimitHeaders respNoLimitHeader.headers) =
      false ∧
    (tryOnce DEFAULT_RATE_LIMIT_CONFIG (Except.ok respNoLimitHeader)).2 =
      [] :=
  ⟨Or.inl rfl,
   (zero_limit_no_backoff DEFAULT_RATE_LIMIT_CONFIG respNoLimitHeader
      (Or.inl rfl)).1,
   (zero_limit_no_backoff DEFAULT_RATE_LIMIT_CONFIG respNoLimitHeader
      (Or.inl rfl)).2⟩

end XManage
